import Mathlib

/-!
Verification of the vcr repository: a shallow embedding of the vsock packet
codec (`packages/vsock-protocol/src/lib.rs`), the CMIO yield-word packing
(`packages/guest-agent/crates/cmio/src/driver.rs`), the multiplexer state
machine of the runner (`packages/runner/src/utils.rs`), the guest agent's
reply-header construction (`packages/guest-agent/src/lib.rs`), and the NBD
block-export server (`cartesi-nbd-server/src/lib.rs`).

Bytes are modelled as `Nat` values below 256 inside `List Nat`; machine
integers are `Nat` with explicit bounds or `% 2 ^ w` where the Rust code
truncates.  Fallible operations return `Option`.
-/

namespace Vcr

/-! ## Byte-level primitives -/

/-- Little-endian byte string of width `w` for the value `n` (each byte is
`n`'s next radix-256 digit), mirroring Rust's `to_le_bytes`. -/
def leBytes : Nat → Nat → List Nat
  | 0, _ => []
  | w + 1, n => n % 256 :: leBytes w (n / 256)

/-- Read a little-endian byte string back into a value, mirroring Rust's
`from_le_bytes`. -/
def fromLeBytes : List Nat → Nat
  | [] => 0
  | b :: bs => b + 256 * fromLeBytes bs

/-- Big-endian byte string of width `w` for the value `n`, mirroring Rust's
`BigEndian::write_*` (most significant byte first). -/
def beBytes (w n : Nat) : List Nat :=
  (leBytes w n).reverse

/-- Read `w` little-endian bytes of `bytes` starting at offset `off`,
mirroring `u32::from_le_bytes(bytes[off..off+w])` (and the `u16` variant). -/
def readLe (bytes : List Nat) (off w : Nat) : Nat :=
  fromLeBytes ((bytes.drop off).take w)

/-! ## Vsock codec (`packages/vsock-protocol/src/lib.rs`) -/

/-- The virtio-vsock packet header, field for field as in the Rust struct
`VirtioVsockHdr`. -/
structure VirtioVsockHdr where
  src_cid : Nat
  dst_cid : Nat
  src_port : Nat
  dst_port : Nat
  len : Nat
  type_ : Nat
  op : Nat
  flags : Nat
  buf_alloc : Nat
  fwd_cnt : Nat
deriving DecidableEq, Repr

def VSOCK_TYPE_STREAM : Nat := 1
def VSOCK_OP_REQUEST : Nat := 1
def VSOCK_OP_RESPONSE : Nat := 2
def VSOCK_OP_RST : Nat := 3
def VSOCK_OP_SHUTDOWN : Nat := 4
def VSOCK_OP_RW : Nat := 5
def VSOCK_OP_CREDIT_UPDATE : Nat := 6
def VSOCK_OP_CREDIT_REQUEST : Nat := 7

/-- Size in bytes of the wire header (`mem::size_of::<VirtioVsockHdr>()`,
which is 36: eight `u32` fields and two `u16` fields, no padding). -/
def HDR_SIZE : Nat := 36

/-- Well-formedness of a header: every field fits the width of its Rust
integer type (`u32` except the `u16` fields `type_` and `op`). -/
def WFHdr (h : VirtioVsockHdr) : Prop :=
  h.src_cid < 2 ^ 32 ∧ h.dst_cid < 2 ^ 32 ∧ h.src_port < 2 ^ 32 ∧
  h.dst_port < 2 ^ 32 ∧ h.len < 2 ^ 32 ∧ h.type_ < 2 ^ 16 ∧
  h.op < 2 ^ 16 ∧ h.flags < 2 ^ 32 ∧ h.buf_alloc < 2 ^ 32 ∧ h.fwd_cnt < 2 ^ 32

instance (h : VirtioVsockHdr) : Decidable (WFHdr h) := by
  unfold WFHdr; infer_instance

/-- `VirtioVsockHdr::to_bytes`: the ten fields, little-endian, in declaration
order with widths 4,4,4,4,4,2,2,4,4,4. -/
def VirtioVsockHdr.to_bytes (h : VirtioVsockHdr) : List Nat :=
  leBytes 4 h.src_cid ++ leBytes 4 h.dst_cid ++ leBytes 4 h.src_port ++
  leBytes 4 h.dst_port ++ leBytes 4 h.len ++ leBytes 2 h.type_ ++
  leBytes 2 h.op ++ leBytes 4 h.flags ++ leBytes 4 h.buf_alloc ++
  leBytes 4 h.fwd_cnt

/-- `VirtioVsockHdr::from_bytes`: `None` if fewer than `HDR_SIZE` bytes,
otherwise read the ten fields at their fixed offsets. -/
def VirtioVsockHdr.from_bytes (bytes : List Nat) : Option VirtioVsockHdr :=
  if bytes.length < HDR_SIZE then none
  else some
    { src_cid := readLe bytes 0 4
      dst_cid := readLe bytes 4 4
      src_port := readLe bytes 8 4
      dst_port := readLe bytes 12 4
      len := readLe bytes 16 4
      type_ := readLe bytes 20 2
      op := readLe bytes 22 2
      flags := readLe bytes 24 4
      buf_alloc := readLe bytes 28 4
      fwd_cnt := readLe bytes 32 4 }

/-- A vsock packet: header plus owned payload, as the Rust struct `Packet`. -/
structure Packet where
  hdr : VirtioVsockHdr
  payload : List Nat
deriving DecidableEq, Repr

/-- `Packet::to_bytes`: header bytes followed by the payload. -/
def Packet.to_bytes (p : Packet) : List Nat :=
  p.hdr.to_bytes ++ p.payload

/-- `Packet::from_bytes`: reject inputs shorter than the header, parse the
header from the first `HDR_SIZE` bytes, reject inputs shorter than
`HDR_SIZE + hdr.len`, and take the payload from the next `hdr.len` bytes. -/
def Packet.from_bytes (bytes : List Nat) : Option Packet :=
  if bytes.length < HDR_SIZE then none
  else
    match VirtioVsockHdr.from_bytes (bytes.take HDR_SIZE) with
    | none => none
    | some hdr =>
      if bytes.length < HDR_SIZE + hdr.len then none
      else some ⟨hdr, (bytes.drop HDR_SIZE).take hdr.len⟩

/-- `read_exact` over a byte-list reader: take `n` bytes and return them with
the remaining input, failing when fewer than `n` bytes are available. -/
def readExact (n : Nat) (input : List Nat) : Option (List Nat × List Nat) :=
  if input.length < n then none else some (input.take n, input.drop n)

/-- `Packet::from_read`: read exactly `HDR_SIZE` bytes, parse the header,
reject a declared length above 4096, then read exactly `hdr.len` payload
bytes. -/
def Packet.from_read (input : List Nat) : Option Packet :=
  match readExact HDR_SIZE input with
  | none => none
  | some (hdrBuf, rest) =>
    match VirtioVsockHdr.from_bytes hdrBuf with
    | none => none
    | some hdr =>
      if 4096 < hdr.len then none
      else
        match readExact hdr.len rest with
        | none => none
        | some (payload, _) => some ⟨hdr, payload⟩

/-- The declared payload length of a byte string: the little-endian `u32` at
offset 16, where the wire header stores `len`. -/
def declaredLen (bytes : List Nat) : Nat :=
  readLe bytes 16 4

/-! ## CMIO yield-word packing (`crates/cmio/src/driver.rs`) -/

/-- `CmioIoDriver::pack`: `(dev << 56) | (cmd << 48) | (reason << 32) | data`
on 64-bit words; the fields come from `u8`, `u8`, `u16`, `u32`. -/
def pack (dev cmd reason data : Nat) : Nat :=
  dev <<< 56 ||| cmd <<< 48 ||| reason <<< 32 ||| data

/-- `CmioIoDriver::unpack`: shift the word right and truncate each field to
its width (`as u8`, `as u8`, `as u16`, `as u32`). -/
def unpack (x : Nat) : Nat × Nat × Nat × Nat :=
  ((x >>> 56) % 2 ^ 8, (x >>> 48) % 2 ^ 8, (x >>> 32) % 2 ^ 16, x % 2 ^ 32)

/-! ## Multiplexer state machine (`packages/runner/src/utils.rs`) -/

def GUEST_CID : Nat := 1
def HOST_CID : Nat := 3
def HOST_PORT : Nat := 1025

structure RunnerListener where
  port : Nat
deriving DecidableEq, Repr

structure RunnerConnectionRequest where
  port : Nat
  open_requested : Bool
deriving DecidableEq, Repr

structure RunnerConnection where
  port : Nat
  read_queue : List (List Nat)
  write_queue : List (List Nat)
deriving DecidableEq, Repr

def RunnerListener.new (port : Nat) : RunnerListener := ⟨port⟩

def RunnerConnectionRequest.new (port : Nat) : RunnerConnectionRequest :=
  ⟨port, false⟩

def RunnerConnection.new (port : Nat) : RunnerConnection := ⟨port, [], []⟩

/-- `RunnerConnection::reset_received`: log, then clear both per-connection
byte queues (the connection itself is not removed from any map). -/
def RunnerConnection.reset_received (c : RunnerConnection) : RunnerConnection :=
  { c with read_queue := [], write_queue := [] }

/-- `RunnerConnection::shutdown_received`: same state effect as a reset. -/
def RunnerConnection.shutdown_received (c : RunnerConnection) : RunnerConnection :=
  { c with read_queue := [], write_queue := [] }

/-- A finite map keyed by port, modelling Rust's `HashMap<u32, _>`. -/
def PortMap (α : Type) : Type := Nat → Option α

def PortMap.insert {α : Type} (m : PortMap α) (k : Nat) (v : α) : PortMap α :=
  fun q => if q = k then some v else m q

def PortMap.remove {α : Type} (m : PortMap α) (k : Nat) : PortMap α :=
  fun q => if q = k then none else m q

def PortMap.empty {α : Type} : PortMap α := fun _ => none

/-- The multiplexer's state (`RunnerState`): listener, connection and
connection-request maps plus the two CMIO packet queues (Rust `Vec`s used as
stacks: `push` appends at the back, `pop` removes from the back). -/
structure RunnerState where
  listeners : PortMap RunnerListener
  connections : PortMap RunnerConnection
  connection_requests : PortMap RunnerConnectionRequest
  cmio_write_queue : List Packet
  cmio_read_queue : List Packet

def RunnerState.new : RunnerState :=
  ⟨PortMap.empty, PortMap.empty, PortMap.empty, [], []⟩

def RunnerState.add_listener (st : RunnerState) (port : Nat) : RunnerState :=
  { st with listeners := st.listeners.insert port (RunnerListener.new port) }

def RunnerState.get_listener (st : RunnerState) (port : Nat) :
    Option RunnerListener :=
  st.listeners port

def RunnerState.add_connection (st : RunnerState) (port : Nat) : RunnerState :=
  { st with connections := st.connections.insert port (RunnerConnection.new port) }

def RunnerState.remove_connection (st : RunnerState) (port : Nat) : RunnerState :=
  { st with connections := st.connections.remove port }

def RunnerState.get_connection (st : RunnerState) (port : Nat) :
    Option RunnerConnection :=
  st.connections port

def RunnerState.add_connection_request (st : RunnerState) (port : Nat) :
    RunnerState :=
  { st with connection_requests :=
      st.connection_requests.insert port (RunnerConnectionRequest.new port) }

def RunnerState.remove_connection_request (st : RunnerState) (port : Nat) :
    RunnerState :=
  { st with connection_requests := st.connection_requests.remove port }

def RunnerState.get_connection_request (st : RunnerState) (port : Nat) :
    Option RunnerConnectionRequest :=
  st.connection_requests port

def RunnerState.add_to_write_queue (st : RunnerState) (p : Packet) : RunnerState :=
  { st with cmio_write_queue := st.cmio_write_queue ++ [p] }

def RunnerState.add_to_read_queue (st : RunnerState) (p : Packet) : RunnerState :=
  { st with cmio_read_queue := st.cmio_read_queue ++ [p] }

/-- `Vec::pop`: remove and return the last element. -/
def vecPop {α : Type} (l : List α) : Option α × List α :=
  match l.getLast? with
  | none => (none, l)
  | some x => (some x, l.dropLast)

def RunnerState.pop_from_write_queue (st : RunnerState) :
    Option Packet × RunnerState :=
  match vecPop st.cmio_write_queue with
  | (r, q) => (r, { st with cmio_write_queue := q })

/-- `construct_packet`: a host-originated packet with the fixed addressing
(src = HOST_CID:HOST_PORT, dst = GUEST_CID:guest_port), stream type, the
given op, `len` equal to the payload length, and zero flags, buf_alloc and
fwd_cnt. -/
def construct_packet (guest_port : Nat) (op : Nat) (payload : List Nat) : Packet :=
  ⟨{ src_cid := HOST_CID
     dst_cid := GUEST_CID
     src_port := HOST_PORT
     dst_port := guest_port
     len := payload.length
     type_ := VSOCK_TYPE_STREAM
     op := op
     flags := 0
     buf_alloc := 0
     fwd_cnt := 0 }, payload⟩

/-- `create_reply_header` (guest agent, `packages/guest-agent/src/lib.rs`):
swap src/dst cid and port, keep `type_`, set the given `op` and `len`, copy
`buf_alloc`, zero `flags` and `fwd_cnt`. -/
def create_reply_header (request_hdr : VirtioVsockHdr) (op len : Nat) :
    VirtioVsockHdr :=
  { src_cid := request_hdr.dst_cid
    dst_cid := request_hdr.src_cid
    src_port := request_hdr.dst_port
    dst_port := request_hdr.src_port
    len := len
    type_ := request_hdr.type_
    op := op
    flags := 0
    buf_alloc := request_hdr.buf_alloc
    fwd_cnt := 0 }

/-- The dispatch of one packet popped from `cmio_read_queue` (the `match` on
`packet.hdr().op` in `run_machine_loop`). -/
def dispatch_packet (st : RunnerState) (p : Packet) : RunnerState :=
  if p.hdr.op = VSOCK_OP_REQUEST then
    let dst_port := p.hdr.dst_port
    let src_port := p.hdr.src_port
    if (st.get_listener dst_port).isSome then
      ((st.add_to_write_queue
          (construct_packet dst_port VSOCK_OP_RESPONSE [])).add_connection
        src_port)
    else
      st.add_to_write_queue (construct_packet dst_port VSOCK_OP_RST [])
  else if p.hdr.op = VSOCK_OP_RESPONSE then
    match st.get_connection_request p.hdr.src_port with
    | some connection_request =>
      (st.add_connection connection_request.port).remove_connection_request
        p.hdr.src_port
    | none =>
      st.add_to_write_queue (construct_packet p.hdr.dst_port VSOCK_OP_RST [])
  else if p.hdr.op = VSOCK_OP_RST then
    match st.get_connection p.hdr.src_port with
    | some connection =>
      { st with connections :=
          st.connections.insert p.hdr.src_port connection.reset_received }
    | none => st
  else if p.hdr.op = VSOCK_OP_RW then
    match st.get_connection p.hdr.src_port with
    | some connection =>
      let connection2 : RunnerConnection :=
        { connection with read_queue := connection.read_queue ++ [p.payload] }
      { st with connections := st.connections.insert p.hdr.src_port connection2 }
    | none => st
  else if p.hdr.op = VSOCK_OP_SHUTDOWN then
    match st.get_connection p.hdr.src_port with
    | some connection =>
      { st with connections :=
          st.connections.insert p.hdr.src_port connection.shutdown_received }
    | none => st
  else st

/-- The receive/respond phase of one `run_machine_loop` iteration: the result
of `receive_packet` is either pushed onto the read queue (replying with an
empty `send_cmio_response`) or, when absent, one packet is popped from the
back of the write queue and its bytes are the response (empty when the queue
is empty).  Returns the new state and the response bytes. -/
def machine_tick_receive (st : RunnerState) (received : Option Packet) :
    RunnerState × List Nat :=
  match received with
  | some p => (st.add_to_read_queue p, [])
  | none =>
    match st.pop_from_write_queue with
    | (some p, st2) => (st2, p.to_bytes)
    | (none, st2) => (st2, [])

/-! ## NBD server (`cartesi-nbd-server/src/lib.rs`) -/

def NBD_MAGIC : Nat := 0x4e42444d41474943
def NBD_OPT_MAGIC : Nat := 0x49484156454f5054
def NBD_REQUEST_MAGIC : Nat := 0x25609513
def NBD_RESPONSE_MAGIC : Nat := 0x67446698
def NBD_CMD_READ : Nat := 0
def NBD_CMD_WRITE : Nat := 1
def NBD_CMD_DISC : Nat := 2
def NBD_SUCCESS : Nat := 0
def NBD_EINVAL : Nat := 1

/-- `InMemoryExport`: a byte vector backing store. -/
structure InMemoryExport where
  data : List Nat
deriving DecidableEq, Repr

def InMemoryExport.new (size : Nat) : InMemoryExport :=
  ⟨List.replicate size 0⟩

def InMemoryExport.size (e : InMemoryExport) : Nat := e.data.length

/-- `InMemoryExport::read`: `len` bytes at `offset`, failing when the range
`offset..offset+len` is out of bounds. -/
def InMemoryExport.read (e : InMemoryExport) (offset len : Nat) :
    Option (List Nat) :=
  if offset + len ≤ e.data.length then some ((e.data.drop offset).take len)
  else none

/-- `InMemoryExport::write`: overwrite `d.length` bytes at `offset`, failing
when the range is out of bounds. -/
def InMemoryExport.write (e : InMemoryExport) (offset : Nat) (d : List Nat) :
    Option InMemoryExport :=
  if offset + d.length ≤ e.data.length then
    some ⟨e.data.take offset ++ d ++ e.data.drop (offset + d.length)⟩
  else none

/-- A parsed NBD request (`Request`): command, handle, offset, length. -/
structure NbdRequest where
  command : Nat
  handle : Nat
  offset : Nat
  length : Nat
deriving DecidableEq, Repr

/-- `Response::write_to`: the 16-byte reply header — big-endian response
magic, `u32` error, `u64` handle. -/
def response_bytes (error handle : Nat) : List Nat :=
  beBytes 4 NBD_RESPONSE_MAGIC ++ beBytes 4 error ++ beBytes 8 handle

/-- `handle_request_command`.  The TCP stream is modelled by `socketIn`, the
bytes available to read from the client (used by WRITE), and the returned
`List Nat`, the bytes written back to the client during the call.  The last
component is `some cont` when the function returns `Ok(cont)` and `none`
when a socket or export error is propagated with `?` (which ends the
session before any reply for this request is written). -/
def handle_request_command (exp : InMemoryExport) (req : NbdRequest)
    (socketIn : List Nat) : InMemoryExport × List Nat × Option Bool :=
  if req.command = NBD_CMD_READ then
    match exp.read req.offset req.length with
    | some d => (exp, response_bytes NBD_SUCCESS req.handle ++ d, some true)
    | none => (exp, [], none)
  else if req.command = NBD_CMD_WRITE then
    if socketIn.length < req.length then (exp, [], none)
    else
      match exp.write req.offset (socketIn.take req.length) with
      | some e2 => (e2, response_bytes NBD_SUCCESS req.handle, some true)
      | none => (exp, [], none)
  else if req.command = NBD_CMD_DISC then (exp, [], some false)
  else (exp, response_bytes NBD_EINVAL req.handle, some true)

/-- `BigEndian::write_*` into a zero-initialized buffer: splice `src` into
`buf` at offset `off`. -/
def writeAt (buf : List Nat) (off : Nat) (src : List Nat) : List Nat :=
  buf.take off ++ src ++ buf.drop (off + src.length)

/-- `perform_handshake`: a 124-byte zeroed buffer with `NBDMAGIC` at 0..8,
`IHAVEOPT` at 8..16, the big-endian export size at 16..24 and a big-endian
zero `u16` flags field at 24..26. -/
def perform_handshake_bytes (export_size : Nat) : List Nat :=
  writeAt
    (writeAt
      (writeAt
        (writeAt (List.replicate 124 0) 0 (beBytes 8 NBD_MAGIC))
        8 (beBytes 8 NBD_OPT_MAGIC))
      16 (beBytes 8 export_size))
    24 (beBytes 2 0)

/-! ## Lemmas -/

theorem leBytes_length (w n : Nat) : (leBytes w n).length = w := by
  induction w generalizing n with
  | zero => rfl
  | succ w ih => simp [leBytes, ih]

theorem beBytes_length (w n : Nat) : (beBytes w n).length = w := by
  simp [beBytes, leBytes_length]

theorem fromLeBytes_leBytes (w n : Nat) :
    fromLeBytes (leBytes w n) = n % 256 ^ w := by
  induction w generalizing n with
  | zero => simp [leBytes, fromLeBytes, Nat.mod_one]
  | succ w ih =>
    rw [leBytes, fromLeBytes, ih]
    rw [pow_succ, Nat.mul_comm (256 ^ w) 256, Nat.mod_mul]

theorem lor_eq_add_of_lt (a k b : Nat) (hb : b < 2 ^ k) :
    a <<< k ||| b = a * 2 ^ k + b := by
  rw [Nat.shiftLeft_eq, Nat.mul_comm a (2 ^ k), ← Nat.mul_add_lt_is_or hb a]

theorem pack_eq_add (dev cmd reason data : Nat)
    (hc : cmd < 2 ^ 8) (hr : reason < 2 ^ 16) (hd : data < 2 ^ 32) :
    pack dev cmd reason data =
      dev * 2 ^ 56 + cmd * 2 ^ 48 + reason * 2 ^ 32 + data := by
  have h1 : reason <<< 32 ||| data = reason * 2 ^ 32 + data :=
    lor_eq_add_of_lt reason 32 data hd
  have hb1 : reason * 2 ^ 32 + data < 2 ^ 48 := by
    have := Nat.succ_le_of_lt hr
    calc reason * 2 ^ 32 + data < (reason + 1) * 2 ^ 32 := by
          rw [Nat.add_mul, Nat.one_mul]; omega
      _ ≤ 2 ^ 16 * 2 ^ 32 := Nat.mul_le_mul_right _ this
      _ = 2 ^ 48 := by norm_num
  have h2 : cmd <<< 48 ||| (reason * 2 ^ 32 + data) =
      cmd * 2 ^ 48 + (reason * 2 ^ 32 + data) :=
    lor_eq_add_of_lt cmd 48 _ hb1
  have hb2 : cmd * 2 ^ 48 + (reason * 2 ^ 32 + data) < 2 ^ 56 := by
    have := Nat.succ_le_of_lt hc
    calc cmd * 2 ^ 48 + (reason * 2 ^ 32 + data) < (cmd + 1) * 2 ^ 48 := by
          rw [Nat.add_mul, Nat.one_mul]; omega
      _ ≤ 2 ^ 8 * 2 ^ 48 := Nat.mul_le_mul_right _ this
      _ = 2 ^ 56 := by norm_num
  have h3 : dev <<< 56 ||| (cmd * 2 ^ 48 + (reason * 2 ^ 32 + data)) =
      dev * 2 ^ 56 + (cmd * 2 ^ 48 + (reason * 2 ^ 32 + data)) :=
    lor_eq_add_of_lt dev 56 _ hb2
  calc pack dev cmd reason data
      = dev <<< 56 ||| (cmd <<< 48 ||| (reason <<< 32 ||| data)) := by
        unfold pack
        rw [Nat.lor_assoc, Nat.lor_assoc]
    _ = dev * 2 ^ 56 + (cmd * 2 ^ 48 + (reason * 2 ^ 32 + data)) := by
        rw [h1, h2, h3]
    _ = dev * 2 ^ 56 + cmd * 2 ^ 48 + reason * 2 ^ 32 + data := by ring

theorem leBytes_four (x : Nat) :
    leBytes 4 x = [x % 256, x / 256 % 256, x / 65536 % 256, x / 16777216 % 256] := by
  simp [leBytes, Nat.div_div_eq_div_mul]

theorem leBytes_two (x : Nat) :
    leBytes 2 x = [x % 256, x / 256 % 256] := by
  simp [leBytes]

theorem to_bytes_length (h : VirtioVsockHdr) : h.to_bytes.length = HDR_SIZE := by
  simp [VirtioVsockHdr.to_bytes, leBytes_length, HDR_SIZE]

/-- Parsing the serialized header (with any suffix appended) recovers every
field of a well-formed header. -/
theorem hdr_from_bytes_to_bytes (h : VirtioVsockHdr) (hwf : WFHdr h)
    (rest : List Nat) :
    VirtioVsockHdr.from_bytes (h.to_bytes ++ rest) = some h := by
  have hlen : ¬ (h.to_bytes ++ rest).length < HDR_SIZE := by
    simp only [List.length_append, to_bytes_length]
    omega
  cases h with
  | mk src_cid dst_cid src_port dst_port len type_ op flags buf_alloc fwd_cnt =>
    obtain ⟨h1, h2, h3, h4, h5, h6, h7, h8, h9, h10⟩ := hwf
    dsimp only at h1 h2 h3 h4 h5 h6 h7 h8 h9 h10
    rw [VirtioVsockHdr.from_bytes, if_neg hlen]
    simp only [VirtioVsockHdr.to_bytes, leBytes_four, leBytes_two,
      List.cons_append, List.nil_append]
    simp [readLe, fromLeBytes]
    omega

theorem readLe_take_of_le (l : List Nat) (k off w : Nat) (h : off + w ≤ k) :
    readLe (l.take k) off w = readLe l off w := by
  unfold readLe
  rw [List.drop_take, List.take_take, Nat.min_eq_left (by omega)]

/-- Parsing the header from the first `HDR_SIZE` bytes of a long-enough
input succeeds, reading each field at its wire offset. -/
theorem hdr_parse_take (bytes : List Nat) (h36 : HDR_SIZE ≤ bytes.length) :
    VirtioVsockHdr.from_bytes (bytes.take HDR_SIZE) = some
      { src_cid := readLe bytes 0 4
        dst_cid := readLe bytes 4 4
        src_port := readLe bytes 8 4
        dst_port := readLe bytes 12 4
        len := readLe bytes 16 4
        type_ := readLe bytes 20 2
        op := readLe bytes 22 2
        flags := readLe bytes 24 4
        buf_alloc := readLe bytes 28 4
        fwd_cnt := readLe bytes 32 4 } := by
  have htake : ¬ (bytes.take HDR_SIZE).length < HDR_SIZE := by
    rw [List.length_take]
    omega
  have hr : ∀ off w, off + w ≤ HDR_SIZE →
      readLe (bytes.take HDR_SIZE) off w = readLe bytes off w := fun off w hw =>
    readLe_take_of_le bytes HDR_SIZE off w hw
  rw [VirtioVsockHdr.from_bytes, if_neg htake,
    hr 0 4 (by decide), hr 4 4 (by decide), hr 8 4 (by decide),
    hr 12 4 (by decide), hr 16 4 (by decide), hr 20 2 (by decide),
    hr 22 2 (by decide), hr 24 4 (by decide), hr 28 4 (by decide),
    hr 32 4 (by decide)]

/-- Unfolding of `Packet::from_bytes` on any input long enough for its
declared payload length: the parse succeeds and each header field is read at
its wire offset. -/
theorem from_bytes_eq (bytes : List Nat)
    (hge : HDR_SIZE + declaredLen bytes ≤ bytes.length) :
    Packet.from_bytes bytes = some
      ⟨{ src_cid := readLe bytes 0 4
         dst_cid := readLe bytes 4 4
         src_port := readLe bytes 8 4
         dst_port := readLe bytes 12 4
         len := readLe bytes 16 4
         type_ := readLe bytes 20 2
         op := readLe bytes 22 2
         flags := readLe bytes 24 4
         buf_alloc := readLe bytes 28 4
         fwd_cnt := readLe bytes 32 4 },
       (bytes.drop HDR_SIZE).take (declaredLen bytes)⟩ := by
  have h36 : HDR_SIZE ≤ bytes.length := le_trans (Nat.le_add_right _ _) hge
  have hlt : ¬ bytes.length < HDR_SIZE := Nat.not_lt.mpr h36
  have hhdr := hdr_parse_take bytes h36
  have h2 : ¬ bytes.length < HDR_SIZE + readLe bytes 16 4 := by
    have hdl : declaredLen bytes = readLe bytes 16 4 := rfl
    omega
  simp only [Packet.from_bytes, if_neg hlt, hhdr]
  rw [if_neg h2]
  rfl

/-- Round-trip with an arbitrary trailing suffix: serializing a well-formed
packet and decoding the result (plus any garbage after it) gives the packet
back. -/
theorem packet_roundtrip_aux (h : VirtioVsockHdr) (p g : List Nat)
    (hwf : WFHdr h) (hlen : h.len = p.length) :
    Packet.from_bytes (Packet.to_bytes ⟨h, p⟩ ++ g) = some ⟨h, p⟩ := by
  have hass : Packet.to_bytes ⟨h, p⟩ ++ g = h.to_bytes ++ (p ++ g) := by
    simp [Packet.to_bytes]
  have hlenall : (h.to_bytes ++ (p ++ g)).length =
      HDR_SIZE + (p.length + g.length) := by
    simp [to_bytes_length]
  have h1 : ¬ (h.to_bytes ++ (p ++ g)).length < HDR_SIZE := by omega
  have htake : (h.to_bytes ++ (p ++ g)).take HDR_SIZE = h.to_bytes :=
    List.take_left' (to_bytes_length h)
  have hparse : VirtioVsockHdr.from_bytes h.to_bytes = some h := by
    simpa using hdr_from_bytes_to_bytes h hwf []
  have h2 : ¬ (h.to_bytes ++ (p ++ g)).length < HDR_SIZE + h.len := by
    rw [hlenall, hlen]
    omega
  have hdrop : (h.to_bytes ++ (p ++ g)).drop HDR_SIZE = p ++ g :=
    List.drop_left' (to_bytes_length h)
  rw [hass]
  simp only [Packet.from_bytes, if_neg h1, htake, hparse]
  rw [if_neg h2, hdrop, hlen, List.take_left]

theorem from_bytes_none (input : List Nat)
    (h : input.length < HDR_SIZE + declaredLen input) :
    Packet.from_bytes input = none := by
  by_cases h36 : input.length < HDR_SIZE
  · rw [Packet.from_bytes, if_pos h36]
  · have h36' : HDR_SIZE ≤ input.length := Nat.le_of_not_lt h36
    have hdl : declaredLen input = readLe input 16 4 := rfl
    simp only [Packet.from_bytes, if_neg h36, hdr_parse_take input h36']
    rw [if_pos (by omega)]

theorem from_read_short (input : List Nat) (h : input.length < HDR_SIZE) :
    Packet.from_read input = none := by
  simp only [Packet.from_read, readExact, if_pos h]

theorem from_read_none_of_big (input : List Nat) (h36 : HDR_SIZE ≤ input.length)
    (h : 4096 < declaredLen input) : Packet.from_read input = none := by
  have hlt : ¬ input.length < HDR_SIZE := Nat.not_lt.mpr h36
  have hdl : declaredLen input = readLe input 16 4 := rfl
  simp only [Packet.from_read, readExact, if_neg hlt, hdr_parse_take input h36]
  rw [if_pos (by omega)]

theorem from_read_none_of_lt (input : List Nat)
    (h : input.length < HDR_SIZE + declaredLen input) :
    Packet.from_read input = none := by
  by_cases h36 : input.length < HDR_SIZE
  · exact from_read_short input h36
  · have h36' : HDR_SIZE ≤ input.length := Nat.le_of_not_lt h36
    by_cases hbig : 4096 < declaredLen input
    · exact from_read_none_of_big input h36' hbig
    · have hdl : declaredLen input = readLe input 16 4 := rfl
      simp only [Packet.from_read, readExact, if_neg h36,
        hdr_parse_take input h36']
      rw [if_neg (by omega), List.length_drop, if_pos (by omega)]

/-! ## Claims -/

/-- C5: For every header `h` and payload `p` with `h.len = p.length ≤ 4096`
(and all fields within their integer widths), decoding the bytes produced by
encoding — `Packet::from_bytes` after `Packet::to_bytes` — succeeds and
returns exactly the packet `⟨h, p⟩`. -/
theorem codec_roundtrip (h : VirtioVsockHdr) (p : List Nat) (hwf : WFHdr h)
    (hlen : h.len = p.length) (hmax : p.length ≤ 4096) :
    Packet.from_bytes (Packet.to_bytes ⟨h, p⟩) = some ⟨h, p⟩ := by
  simpa using packet_roundtrip_aux h p [] hwf hlen

/-- Witness for C5 at a concrete header and payload. -/
theorem codec_roundtrip_witness :
    Packet.from_bytes
        (Packet.to_bytes ⟨⟨1, 3, 5000, 8080, 3, 1, 5, 0, 64, 0⟩, [9, 8, 7]⟩) =
      some ⟨⟨1, 3, 5000, 8080, 3, 1, 5, 0, 64, 0⟩, [9, 8, 7]⟩ :=
  codec_roundtrip ⟨1, 3, 5000, 8080, 3, 1, 5, 0, 64, 0⟩ [9, 8, 7]
    (by decide) (by decide) (by decide)

/-- C6 counterexample: `Packet::from_bytes` does not reject a declared
length above 4096 — on the serialized bytes of a packet whose header
declares `len = 4097` (with a 4097-byte payload present), decoding succeeds
instead of returning an error. -/
theorem decode_rejection_counterexample :
    declaredLen
        (Packet.to_bytes ⟨⟨3, 1, 1025, 8080, 4097, 1, 5, 0, 0, 0⟩,
          List.replicate 4097 0⟩) = 4097 ∧
    Packet.from_bytes
        (Packet.to_bytes ⟨⟨3, 1, 1025, 8080, 4097, 1, 5, 0, 0, 0⟩,
          List.replicate 4097 0⟩) =
      some ⟨⟨3, 1, 1025, 8080, 4097, 1, 5, 0, 0, 0⟩, List.replicate 4097 0⟩ := by
  constructor
  · decide
  · have := packet_roundtrip_aux ⟨3, 1, 1025, 8080, 4097, 1, 5, 0, 0, 0⟩
      (List.replicate 4097 0) [] (by decide) (by rw [List.length_replicate])
    rw [List.append_nil] at this
    exact this

/-- C6 (amended): `Packet::from_bytes` returns an error for every input
shorter than 36 bytes and for every input shorter than 36 plus the declared
len, but it does not check the declared len against 4096; the 4096 bound is
enforced only by `Packet::from_read`, which rejects all three cases. -/
theorem decode_rejection :
    (∀ input : List Nat, input.length < HDR_SIZE + declaredLen input →
        Packet.from_bytes input = none) ∧
    (∀ input : List Nat, input.length < HDR_SIZE + declaredLen input →
        Packet.from_read input = none) ∧
    (∀ input : List Nat, 4096 < declaredLen input →
        Packet.from_read input = none) := by
  refine ⟨from_bytes_none, from_read_none_of_lt, ?_⟩
  intro input h
  by_cases h36 : input.length < HDR_SIZE
  · exact from_read_short input h36
  · exact from_read_none_of_big input (Nat.le_of_not_lt h36) h

/-- Witness for C6 (amended) at concrete inputs: a 1-byte input fails both
decoders, and a 36-byte header declaring `len = 4097` fails `from_read`. -/
theorem decode_rejection_witness :
    Packet.from_bytes [7] = none ∧ Packet.from_read [7] = none ∧
    Packet.from_read
        (VirtioVsockHdr.to_bytes ⟨3, 1, 1025, 8080, 4097, 1, 5, 0, 0, 0⟩) =
      none :=
  ⟨decode_rejection.1 [7] (by decide), decode_rejection.2.1 [7] (by decide),
    decode_rejection.2.2
      (VirtioVsockHdr.to_bytes ⟨3, 1, 1025, 8080, 4097, 1, 5, 0, 0, 0⟩)
      (by decide)⟩

/-- C9: For every dev, cmd, reason, data within the widths `u8`, `u8`,
`u16`, `u32`, unpacking the packed 64-bit yield word returns the same four
fields; and pack(0xAB, 0xCD, 0x1234, 0x89ABCDEF) = 0xABCD123489ABCDEF. -/
theorem yield_pack_unpack (dev cmd reason data : Nat)
    (hdev : dev < 2 ^ 8) (hcmd : cmd < 2 ^ 8) (hreason : reason < 2 ^ 16)
    (hdata : data < 2 ^ 32) :
    unpack (pack dev cmd reason data) = (dev, cmd, reason, data) ∧
    pack 0xAB 0xCD 0x1234 0x89ABCDEF = 0xABCD123489ABCDEF := by
  constructor
  · rw [pack_eq_add dev cmd reason data hcmd hreason hdata]
    simp only [unpack, Nat.shiftRight_eq_div_pow, Prod.mk.injEq]
    norm_num
    refine ⟨?_, ?_, ?_, ?_⟩ <;> omega
  · decide

/-- Witness for C9 at the spec's concrete values. -/
theorem yield_pack_unpack_witness :
    unpack (pack 0xAB 0xCD 0x1234 0x89ABCDEF) =
      (0xAB, 0xCD, 0x1234, 0x89ABCDEF) :=
  (yield_pack_unpack 0xAB 0xCD 0x1234 0x89ABCDEF (by norm_num) (by norm_num)
    (by norm_num) (by norm_num)).1

/-- C10: `Packet::from_bytes` succeeds on any input at least 36 plus the
declared len long, the result only depends on that prefix (trailing bytes
are ignored), the returned payload length equals the header's `len`, and in
particular decoding a serialized packet followed by trailing garbage yields
exactly that packet. -/
theorem from_bytes_trailing (bytes : List Nat)
    (hge : HDR_SIZE + declaredLen bytes ≤ bytes.length) :
    (∃ pkt : Packet, Packet.from_bytes bytes = some pkt ∧
        pkt.payload.length = pkt.hdr.len ∧ pkt.hdr.len = declaredLen bytes) ∧
    Packet.from_bytes bytes =
      Packet.from_bytes (bytes.take (HDR_SIZE + declaredLen bytes)) ∧
    (∀ (hd : VirtioVsockHdr) (p g : List Nat), WFHdr hd → hd.len = p.length →
        Packet.from_bytes (Packet.to_bytes ⟨hd, p⟩ ++ g) = some ⟨hd, p⟩) := by
  refine ⟨⟨_, from_bytes_eq bytes hge, ?_, rfl⟩, ?_, ?_⟩
  · simp only [List.length_take, List.length_drop]
    have hdl : declaredLen bytes = readLe bytes 16 4 := rfl
    omega
  · have hlen2 : (bytes.take (HDR_SIZE + declaredLen bytes)).length =
        HDR_SIZE + declaredLen bytes := by
      rw [List.length_take]
      omega
    have hdl2 : declaredLen (bytes.take (HDR_SIZE + declaredLen bytes)) =
        declaredLen bytes := by
      show readLe (bytes.take (HDR_SIZE + declaredLen bytes)) 16 4 = _
      rw [readLe_take_of_le bytes (HDR_SIZE + declaredLen bytes) 16 4
        (by simp only [HDR_SIZE]; omega)]
      rfl
    have hge2 : HDR_SIZE + declaredLen (bytes.take (HDR_SIZE + declaredLen bytes)) ≤
        (bytes.take (HDR_SIZE + declaredLen bytes)).length := by
      rw [hlen2, hdl2]
    rw [from_bytes_eq bytes hge,
      from_bytes_eq (bytes.take (HDR_SIZE + declaredLen bytes)) hge2]
    have hrd : ∀ off w, off + w ≤ HDR_SIZE →
        readLe (bytes.take (HDR_SIZE + declaredLen bytes)) off w =
          readLe bytes off w := fun off w hw =>
      readLe_take_of_le bytes (HDR_SIZE + declaredLen bytes) off w
        (le_trans hw (Nat.le_add_right _ _))
    rw [hrd 0 4 (by decide), hrd 4 4 (by decide), hrd 8 4 (by decide),
      hrd 12 4 (by decide), hrd 16 4 (by decide), hrd 20 2 (by decide),
      hrd 22 2 (by decide), hrd 24 4 (by decide), hrd 28 4 (by decide),
      hrd 32 4 (by decide), hdl2]
    rw [List.drop_take, Nat.add_sub_cancel_left, List.take_take,
      Nat.min_self]
  · intro hd p g hwf hlen
    exact packet_roundtrip_aux hd p g hwf hlen

/-- Witness for C10 at a concrete input with trailing garbage. -/
theorem from_bytes_trailing_witness :
    Packet.from_bytes
        (Packet.to_bytes ⟨⟨1, 3, 5000, 8080, 2, 1, 5, 0, 64, 0⟩, [9, 8]⟩ ++
          [1, 2, 3]) =
      some ⟨⟨1, 3, 5000, 8080, 2, 1, 5, 0, 64, 0⟩, [9, 8]⟩ :=
  (from_bytes_trailing (List.replicate 36 0) (by decide)).2.2
    ⟨1, 3, 5000, 8080, 2, 1, 5, 0, 64, 0⟩ [9, 8] [1, 2, 3]
    (by decide) (by decide)

/-- C1: In the receive/respond phase of each main-loop iteration, at most
one direction is served — a packet received from the guest is pushed onto
the read queue and the tick's response is empty (a queued outbound packet is
never sent on such a tick); only when no packet is received is an outbound
packet popped from the tail (back) of the write queue and sent, and when
that queue is empty an empty response is sent. -/
theorem half_duplex_tick (st : RunnerState) (received : Option Packet) :
    (∀ p, received = some p →
        machine_tick_receive st received =
          ({ st with cmio_read_queue := st.cmio_read_queue ++ [p] }, [])) ∧
    (received = none → st.cmio_write_queue = [] →
        machine_tick_receive st received = (st, [])) ∧
    (∀ q p, received = none → st.cmio_write_queue = q ++ [p] →
        machine_tick_receive st received =
          ({ st with cmio_write_queue := q }, p.to_bytes)) := by
  refine ⟨?_, ?_, ?_⟩
  · intro p hp
    subst hp
    rfl
  · intro hn hq
    subst hn
    cases st with
    | mk ls cs rs wq rq =>
      simp only at hq
      subst hq
      rfl
  · intro q p hn hq
    subst hn
    simp [machine_tick_receive, RunnerState.pop_from_write_queue, vecPop, hq,
      List.getLast?_concat, List.dropLast_concat]

/-- Witness for C1: with one queued packet and nothing received, that packet
is popped and sent. -/
theorem half_duplex_tick_witness :
    machine_tick_receive
        { RunnerState.new with
            cmio_write_queue := [construct_packet 8080 VSOCK_OP_RW [7]] }
        none =
      ({ RunnerState.new with cmio_write_queue := [] },
        (construct_packet 8080 VSOCK_OP_RW [7]).to_bytes) :=
  (half_duplex_tick
      { RunnerState.new with
          cmio_write_queue := [construct_packet 8080 VSOCK_OP_RW [7]] }
      none).2.2 [] (construct_packet 8080 VSOCK_OP_RW [7]) rfl (by simp)

/-- C2 counterexample: dispatching an RST for port 5, a known established
connection, leaves the connections map still containing port 5 (with
cleared queues); and dispatching an RST for port 7, a known pending
connection request, leaves the connection-requests map still containing
port 7. -/
theorem rst_removes_state_counterexample :
    ((dispatch_packet
        { RunnerState.new with
            connections := PortMap.empty.insert 5 (RunnerConnection.new 5) }
        ⟨{ src_cid := 1, dst_cid := 3, src_port := 5, dst_port := 1025,
           len := 0, type_ := 1, op := VSOCK_OP_RST, flags := 0,
           buf_alloc := 0, fwd_cnt := 0 }, []⟩).connections 5 =
      some ⟨5, [], []⟩) ∧
    ((dispatch_packet
        { RunnerState.new with
            connection_requests :=
              PortMap.empty.insert 7 (RunnerConnectionRequest.new 7) }
        ⟨{ src_cid := 1, dst_cid := 3, src_port := 7, dst_port := 1025,
           len := 0, type_ := 1, op := VSOCK_OP_RST, flags := 0,
           buf_alloc := 0, fwd_cnt := 0 }, []⟩).connection_requests 7 =
      some ⟨7, false⟩) := by
  constructor
  · decide
  · decide

/-- C2 (amended): after dispatching an RST whose src_port identifies a known
established connection, the connection remains in the connections map with
its read and write queues cleared (the connection-requests map is untouched);
when there is no such connection — in particular when the port identifies
only a pending connection request — the state is entirely unchanged.
Neither map loses its entry. -/
theorem rst_removes_state_amended (st : RunnerState) (p : Packet)
    (hop : p.hdr.op = VSOCK_OP_RST) :
    (∀ c, st.connections p.hdr.src_port = some c →
        dispatch_packet st p =
          { st with connections :=
              st.connections.insert p.hdr.src_port c.reset_received }) ∧
    (st.connections p.hdr.src_port = none → dispatch_packet st p = st) := by
  constructor
  · intro c hc
    simp [dispatch_packet, hop, VSOCK_OP_REQUEST, VSOCK_OP_RESPONSE,
      VSOCK_OP_RST, RunnerState.get_connection, hc]
  · intro hc
    simp [dispatch_packet, hop, VSOCK_OP_REQUEST, VSOCK_OP_RESPONSE,
      VSOCK_OP_RST, RunnerState.get_connection, hc]

/-- Witness for C2 (amended): the RST dispatch on a concrete state with a
connection at port 5. -/
theorem rst_removes_state_amended_witness :
    dispatch_packet
        { RunnerState.new with
            connections := PortMap.empty.insert 5 (RunnerConnection.new 5) }
        ⟨{ src_cid := 1, dst_cid := 3, src_port := 5, dst_port := 1025,
           len := 0, type_ := 1, op := VSOCK_OP_RST, flags := 0,
           buf_alloc := 0, fwd_cnt := 0 }, []⟩ =
      { { RunnerState.new with
            connections := PortMap.empty.insert 5 (RunnerConnection.new 5) } with
          connections :=
            (PortMap.empty.insert 5 (RunnerConnection.new 5)).insert 5
              (RunnerConnection.new 5).reset_received } :=
  (rst_removes_state_amended
      { RunnerState.new with
          connections := PortMap.empty.insert 5 (RunnerConnection.new 5) }
      ⟨{ src_cid := 1, dst_cid := 3, src_port := 5, dst_port := 1025,
         len := 0, type_ := 1, op := VSOCK_OP_RST, flags := 0,
         buf_alloc := 0, fwd_cnt := 0 }, []⟩ rfl).1
    (RunnerConnection.new 5) rfl

/-- C3 counterexample: with a listener on port 8080 and a REQUEST from
src_port 5000 with buf_alloc 64, the RESPONSE packet the multiplexer
enqueues does not have the swapped-and-copied header the claim describes:
its header is built by `construct_packet` with fixed host addressing. -/
theorem reply_header_counterexample :
    ((dispatch_packet
        { RunnerState.new with
            listeners := PortMap.empty.insert 8080 (RunnerListener.new 8080) }
        ⟨{ src_cid := 1, dst_cid := 3, src_port := 5000, dst_port := 8080,
           len := 0, type_ := 1, op := VSOCK_OP_REQUEST, flags := 0,
           buf_alloc := 64, fwd_cnt := 0 }, []⟩).cmio_write_queue =
      [construct_packet 8080 VSOCK_OP_RESPONSE []]) ∧
    (construct_packet 8080 VSOCK_OP_RESPONSE []).hdr ≠
      create_reply_header
        { src_cid := 1, dst_cid := 3, src_port := 5000, dst_port := 8080,
          len := 0, type_ := 1, op := VSOCK_OP_REQUEST, flags := 0,
          buf_alloc := 64, fwd_cnt := 0 } VSOCK_OP_RESPONSE 0 := by
  constructor
  · decide
  · decide

/-- C3 (amended): the guest agent's `create_reply_header` does swap src/dst
cid and port, keep `type`, set the given op and len, copy buf_alloc, and
zero flags and fwd_cnt; but the RESPONSE packet the multiplexer enqueues
when a REQUEST arrives at a listening port is built by `construct_packet`
with fixed host addressing — src 3:1025, dst cid 1, dst_port equal to the
REQUEST's dst_port — with len 0, stream type, and zero flags, buf_alloc and
fwd_cnt. -/
theorem reply_header_amended :
    (∀ (request_hdr : VirtioVsockHdr) (op len : Nat),
        create_reply_header request_hdr op len =
          { src_cid := request_hdr.dst_cid
            dst_cid := request_hdr.src_cid
            src_port := request_hdr.dst_port
            dst_port := request_hdr.src_port
            len := len
            type_ := request_hdr.type_
            op := op
            flags := 0
            buf_alloc := request_hdr.buf_alloc
            fwd_cnt := 0 }) ∧
    (∀ (st : RunnerState) (p : Packet), p.hdr.op = VSOCK_OP_REQUEST →
        (st.listeners p.hdr.dst_port).isSome →
        dispatch_packet st p =
          ((st.add_to_write_queue
              (construct_packet p.hdr.dst_port VSOCK_OP_RESPONSE
                [])).add_connection p.hdr.src_port) ∧
        (construct_packet p.hdr.dst_port VSOCK_OP_RESPONSE []).hdr =
          { src_cid := HOST_CID
            dst_cid := GUEST_CID
            src_port := HOST_PORT
            dst_port := p.hdr.dst_port
            len := 0
            type_ := VSOCK_TYPE_STREAM
            op := VSOCK_OP_RESPONSE
            flags := 0
            buf_alloc := 0
            fwd_cnt := 0 }) := by
  constructor
  · intro request_hdr op len
    rfl
  · intro st p hop hl
    constructor
    · simp [dispatch_packet, hop, RunnerState.get_listener, hl]
    · rfl

/-- Witness for C3 (amended): the dispatch equality at a concrete listening
state and REQUEST packet. -/
theorem reply_header_amended_witness :
    dispatch_packet
        { RunnerState.new with
            listeners := PortMap.empty.insert 8080 (RunnerListener.new 8080) }
        ⟨{ src_cid := 1, dst_cid := 3, src_port := 5000, dst_port := 8080,
           len := 0, type_ := 1, op := VSOCK_OP_REQUEST, flags := 0,
           buf_alloc := 64, fwd_cnt := 0 }, []⟩ =
      (({ RunnerState.new with
            listeners :=
              PortMap.empty.insert 8080
                (RunnerListener.new 8080) }.add_to_write_queue
          (construct_packet 8080 VSOCK_OP_RESPONSE [])).add_connection 5000) :=
  (reply_header_amended.2
      { RunnerState.new with
          listeners := PortMap.empty.insert 8080 (RunnerListener.new 8080) }
      ⟨{ src_cid := 1, dst_cid := 3, src_port := 5000, dst_port := 8080,
         len := 0, type_ := 1, op := VSOCK_OP_REQUEST, flags := 0,
         buf_alloc := 64, fwd_cnt := 0 }, []⟩ rfl (by decide)).1

/-- C4 counterexample: a REQUEST from src_port 7000 to port 9999 with no
listener makes the multiplexer enqueue an RST whose dst_port is 9999 — the
REQUEST's dst_port, not its src_port 7000. -/
theorem unknown_port_counterexample :
    ((dispatch_packet RunnerState.new
        ⟨{ src_cid := 1, dst_cid := 3, src_port := 7000, dst_port := 9999,
           len := 0, type_ := 1, op := VSOCK_OP_REQUEST, flags := 0,
           buf_alloc := 0, fwd_cnt := 0 }, []⟩).cmio_write_queue =
      [construct_packet 9999 VSOCK_OP_RST []]) ∧
    (construct_packet 9999 VSOCK_OP_RST []).hdr.dst_port = 9999 ∧
    (9999 : Nat) ≠ 7000 := by
  refine ⟨by decide, rfl, by decide⟩

/-- C4 (amended): when a REQUEST is dispatched and no listener is registered
at its dst_port, the multiplexer enqueues an RST addressed to the REQUEST's
dst_port (with the fixed host source addressing), and the state is otherwise
unchanged — in particular no connection is added. -/
theorem unknown_port_amended (st : RunnerState) (p : Packet)
    (hop : p.hdr.op = VSOCK_OP_REQUEST)
    (hl : st.listeners p.hdr.dst_port = none) :
    dispatch_packet st p =
      { st with cmio_write_queue :=
          st.cmio_write_queue ++ [construct_packet p.hdr.dst_port VSOCK_OP_RST []] } := by
  simp [dispatch_packet, hop, RunnerState.get_listener, hl,
    RunnerState.add_to_write_queue]

/-- Witness for C4 (amended) at a concrete REQUEST and empty state. -/
theorem unknown_port_amended_witness :
    dispatch_packet RunnerState.new
        ⟨{ src_cid := 1, dst_cid := 3, src_port := 7000, dst_port := 9999,
           len := 0, type_ := 1, op := VSOCK_OP_REQUEST, flags := 0,
           buf_alloc := 0, fwd_cnt := 0 }, []⟩ =
      { RunnerState.new with
          cmio_write_queue := [construct_packet 9999 VSOCK_OP_RST []] } :=
  unknown_port_amended RunnerState.new
    ⟨{ src_cid := 1, dst_cid := 3, src_port := 7000, dst_port := 9999,
       len := 0, type_ := 1, op := VSOCK_OP_REQUEST, flags := 0,
       buf_alloc := 0, fwd_cnt := 0 }, []⟩ rfl rfl

/-- C7 counterexample: on a 10-byte export, a READ of 5 bytes at offset 8
(offset + len = 13 > 10) produces no reply bytes at all and an error
outcome — no 16-byte reply header with a non-zero error is sent; likewise
for a WRITE. -/
theorem nbd_oob_counterexample :
    handle_request_command (InMemoryExport.new 10) ⟨NBD_CMD_READ, 42, 8, 5⟩ [] =
      (InMemoryExport.new 10, [], none) ∧
    handle_request_command (InMemoryExport.new 10) ⟨NBD_CMD_WRITE, 42, 8, 5⟩
        (List.replicate 5 7) =
      (InMemoryExport.new 10, [], none) := by
  constructor
  · decide
  · decide

/-- C7 (amended): for every READ or WRITE whose offset plus length exceeds
the export size, the export operation fails and the server propagates the
error: no reply (and in particular no 16-byte reply header with a non-zero
error) is written for that request and the session ends. -/
theorem nbd_oob_amended (exp : InMemoryExport) (req : NbdRequest)
    (socketIn : List Nat) (hoob : exp.size < req.offset + req.length) :
    (req.command = NBD_CMD_READ →
        handle_request_command exp req socketIn = (exp, [], none)) ∧
    (req.command = NBD_CMD_WRITE → req.length ≤ socketIn.length →
        handle_request_command exp req socketIn = (exp, [], none)) := by
  have hsz : exp.size = exp.data.length := rfl
  constructor
  · intro hc
    rw [handle_request_command, hc, if_pos rfl]
    unfold InMemoryExport.read
    rw [if_neg (by omega)]
  · intro hc hsock
    rw [handle_request_command, hc, if_neg (by decide), if_pos rfl,
      if_neg (Nat.not_lt.mpr hsock)]
    unfold InMemoryExport.write
    rw [List.length_take, if_neg (by omega)]

/-- Witness for C7 (amended) at a concrete out-of-bounds READ. -/
theorem nbd_oob_amended_witness :
    handle_request_command (InMemoryExport.new 10) ⟨NBD_CMD_READ, 42, 8, 5⟩ [] =
      (InMemoryExport.new 10, [], none) :=
  (nbd_oob_amended (InMemoryExport.new 10) ⟨NBD_CMD_READ, 42, 8, 5⟩ []
    (by decide)).1 rfl

theorem writeAt_append_at (pre tail src : List Nat) (off : Nat)
    (hoff : pre.length = off) :
    writeAt (pre ++ tail) off src = pre ++ (src ++ tail.drop src.length) := by
  subst hoff
  unfold writeAt
  rw [List.take_left, ← List.drop_drop, List.drop_left, List.append_assoc]

/-- C8 counterexample: the handshake the server sends for a 1024-byte export
is not of the claimed shape with 114 reserved zero bytes (that shape would
be 140 bytes long; the handshake is 124 bytes). -/
theorem nbd_handshake_counterexample :
    perform_handshake_bytes 1024 ≠
      beBytes 8 NBD_MAGIC ++ beBytes 8 NBD_OPT_MAGIC ++ beBytes 8 1024 ++
        beBytes 2 0 ++ List.replicate 114 0 := by
  decide

/-- C8 (amended): on each connection the server first sends exactly 124
bytes: the constant 0x4E42444D41474943, the constant 0x49484156454F5054,
the export size as a big-endian u64, a big-endian u16 zero flags field, and
98 reserved zero bytes. -/
theorem nbd_handshake_amended (s : Nat) :
    perform_handshake_bytes s =
      beBytes 8 NBD_MAGIC ++ beBytes 8 NBD_OPT_MAGIC ++ beBytes 8 s ++
        beBytes 2 0 ++ List.replicate 98 0 ∧
    (perform_handshake_bytes s).length = 124 := by
  have e1 : writeAt (List.replicate 124 0) 0 (beBytes 8 NBD_MAGIC) =
      beBytes 8 NBD_MAGIC ++ List.replicate 116 (0 : Nat) := by
    simp [writeAt, beBytes_length, List.drop_replicate]
  have e2 : writeAt (beBytes 8 NBD_MAGIC ++ List.replicate 116 (0 : Nat)) 8
      (beBytes 8 NBD_OPT_MAGIC) =
      beBytes 8 NBD_MAGIC ++
        (beBytes 8 NBD_OPT_MAGIC ++ List.replicate 108 (0 : Nat)) := by
    rw [writeAt_append_at _ _ _ 8 (beBytes_length 8 _)]
    simp [beBytes_length, List.drop_replicate]
  have e3 : writeAt
      (beBytes 8 NBD_MAGIC ++
        (beBytes 8 NBD_OPT_MAGIC ++ List.replicate 108 (0 : Nat))) 16
      (beBytes 8 s) =
      (beBytes 8 NBD_MAGIC ++ beBytes 8 NBD_OPT_MAGIC) ++
        (beBytes 8 s ++ List.replicate 100 (0 : Nat)) := by
    rw [← List.append_assoc,
      writeAt_append_at _ _ _ 16 (by simp [beBytes_length])]
    simp [beBytes_length, List.drop_replicate]
  have e4 : writeAt
      ((beBytes 8 NBD_MAGIC ++ beBytes 8 NBD_OPT_MAGIC) ++
        (beBytes 8 s ++ List.replicate 100 (0 : Nat))) 24
      (beBytes 2 0) =
      ((beBytes 8 NBD_MAGIC ++ beBytes 8 NBD_OPT_MAGIC) ++ beBytes 8 s) ++
        (beBytes 2 0 ++ List.replicate 98 (0 : Nat)) := by
    rw [← List.append_assoc,
      writeAt_append_at _ _ _ 24 (by simp [beBytes_length])]
    simp [beBytes_length, List.drop_replicate]
  have emain : perform_handshake_bytes s =
      beBytes 8 NBD_MAGIC ++ beBytes 8 NBD_OPT_MAGIC ++ beBytes 8 s ++
        beBytes 2 0 ++ List.replicate 98 0 := by
    rw [perform_handshake_bytes, e1, e2, e3, e4]
    simp [List.append_assoc]
  refine ⟨emain, ?_⟩
  rw [emain]
  simp [beBytes_length, List.length_append, List.length_replicate]

end Vcr
